import Mathlib

/-!
Verification of the B_Golden sync/upsert layer: a shallow embedding of the
upsert reconciliation (`src/models/*.js`), the field normalizer and sync
derivations (`src/services/BigQuerySync.js`, `src/middleware/gmbAuth.js`),
the metrics/health aggregator (`src/utils/metrics.js`), and the webhook
signature check (`src/routes/cubby.js`).
-/

namespace BGolden

/-- Scalar JavaScript values (the field values carried inside wrapper objects
such as the BigQuery `{value: "..."}` date carrier are always scalars). -/
inductive JSPrim where
  | null
  | undefined
  | nan
  | bool (b : Bool)
  | num (q : ℚ)
  | str (s : String)
deriving DecidableEq

/-- Shallow embedding of the JavaScript values flowing through the sync layer:
scalars plus one level of wrapper object, which is the only object shape the
source code inspects (`row[field].value`). -/
inductive JSVal where
  | null
  | undefined
  | nan
  | bool (b : Bool)
  | num (q : ℚ)
  | str (s : String)
  | obj (fields : List (String × JSPrim))
deriving DecidableEq

/-- Embed a scalar back into the value type. -/
def JSPrim.toVal : JSPrim → JSVal
  | .null => .null
  | .undefined => .undefined
  | .nan => .nan
  | .bool b => .bool b
  | .num q => .num q
  | .str s => .str s

/-- A database row / JS record: an association list of column name to value
(JS object key order preserved; JS objects cannot repeat a key). -/
abbrev Row := List (String × JSVal)

/-- JavaScript truthiness of a scalar. -/
def jsTruthyPrim : JSPrim → Bool
  | .null => false
  | .undefined => false
  | .nan => false
  | .bool b => b
  | .num q => decide (q ≠ 0)
  | .str s => decide (s ≠ "")

/-- JavaScript truthiness of a value: objects are always truthy. -/
def jsTruthy : JSVal → Bool
  | .null => false
  | .undefined => false
  | .nan => false
  | .bool b => b
  | .num q => decide (q ≠ 0)
  | .str s => decide (s ≠ "")
  | .obj _ => true

/-- JS property read `o[k]` on a record: a missing property is `undefined`. -/
def getProp (o : Row) (k : String) : JSVal :=
  (o.lookup k).getD .undefined

/-- `Object.keys` of a record. -/
def rowKeys (r : Row) : List String := r.map Prod.fst

/-! ## Upsert reconciler (`src/models/Unit.js`, `src/models/Payment.js`, ...)

Each model's `upsertMany` builds, per record, the statement
`INSERT INTO <table> (<columns>) VALUES (<placeholders>)
 ON CONFLICT (<conflictKey>) DO UPDATE SET <updateClause>, updated_at = CURRENT_TIMESTAMP`
where `updateClause` assigns `EXCLUDED.<k>` to every record key `k` not in the
model's exclusion filter. The per-model data below is read off the source:
the `ON CONFLICT (...)` target and the `.filter(key => key !== ...)` list. -/

/-- The statically known parts of one model's `upsertMany` statement template. -/
structure UpsertSpec where
  tableName : String
  conflictKey : String
  exclude : List String
deriving DecidableEq

/-- `Unit.upsertMany`: `ON CONFLICT (unit_id)`, filter `key !== 'unit_id'`. -/
def unitSpec : UpsertSpec :=
  { tableName := "units", conflictKey := "unit_id", exclude := ["unit_id"] }

/-- `Payment.upsertMany`: `ON CONFLICT (id)`, filter `key !== 'payment_id'`. -/
def paymentSpec : UpsertSpec :=
  { tableName := "payments", conflictKey := "id", exclude := ["payment_id"] }

/-- `PricingGroup.upsertMany`: `ON CONFLICT (pg_id)`, filter `key !== 'pg_id'`. -/
def pricingGroupSpec : UpsertSpec :=
  { tableName := "pricing_group", conflictKey := "pg_id", exclude := ["pg_id"] }

/-- `Contact.upsertMany`: `ON CONFLICT (contact_id)`,
filter `key !== 'contact_id' && key !== 'updated_at'`. -/
def contactSpec : UpsertSpec :=
  { tableName := "contacts", conflictKey := "contact_id",
    exclude := ["contact_id", "updated_at"] }

/-- `CustomerTouch.upsertMany`: `ON CONFLICT (ga_session)`,
filter `key !== 'ga_session' && key !== 'updated_at'`. -/
def customerTouchSpec : UpsertSpec :=
  { tableName := "customer_touches", conflictKey := "ga_session",
    exclude := ["ga_session", "updated_at"] }

/-- The column names assigned in the generated `DO UPDATE SET` clause:
`Object.keys(record).filter(key => !excluded(key))`. -/
def updateAssignCols (spec : UpsertSpec) (r : Row) : List String :=
  (rowKeys r).filter (fun k => !(spec.exclude.contains k))

/-- The generated `DO UPDATE SET` assignment text (before the trailing
`updated_at = CURRENT_TIMESTAMP` the template always appends). -/
def updateClause (spec : UpsertSpec) (r : Row) : String :=
  String.intercalate ", "
    ((updateAssignCols spec r).map (fun k => k ++ " = EXCLUDED." ++ k))

/-- Set one column of a row (overwriting an existing column, else appending),
the effect of a single SQL `SET col = v` on that row. -/
def setCol (row : Row) (c : String) (v : JSVal) : Row :=
  if (row.lookup c).isSome then
    row.map (fun p => if p.1 = c then (c, v) else p)
  else
    row ++ [(c, v)]

/-- Effect of the `DO UPDATE SET` clause on the conflicting row: assign
`EXCLUDED.<c>` (the incoming record's value) for every non-excluded record
column, then `updated_at = CURRENT_TIMESTAMP` (modelled as the numeric clock
value `now`). -/
def applyUpdate (spec : UpsertSpec) (r : Row) (now : ℚ) (row0 : Row) : Row :=
  setCol
    ((updateAssignCols spec r).foldl (fun acc c => setCol acc c (getProp r c)) row0)
    "updated_at" (.num now)

/-- SQL semantics of one `INSERT ... ON CONFLICT (k) DO UPDATE` statement on a
table with a uniqueness constraint on `k`: update the row matching the
record's `k`-value `v` if one exists, else insert the record. -/
def insertOrUpdate (spec : UpsertSpec) (v : JSVal) (r : Row) (now : ℚ) :
    List Row → List Row
  | [] => [r]
  | row :: rest =>
    if row.lookup spec.conflictKey = some v then
      applyUpdate spec r now row :: rest
    else
      row :: insertOrUpdate spec v r now rest

/-- The rows of a table whose conflict-key column holds `v`. -/
def filterKey (spec : UpsertSpec) (v : JSVal) (t : List Row) : List Row :=
  t.filter (fun row => decide (row.lookup spec.conflictKey = some v))

/-- Number of rows whose conflict-key column holds `v`. -/
def keyCount (spec : UpsertSpec) (v : JSVal) (t : List Row) : Nat :=
  (filterKey spec v t).length

/-- The first row whose conflict-key column holds `v`. -/
def findKey (spec : UpsertSpec) (v : JSVal) (t : List Row) : Option Row :=
  (filterKey spec v t).head?

/-- The pure effect of a successful batch on the table: each record's
`INSERT ... ON CONFLICT DO UPDATE` in order (records without the conflict
column would error in `upsertMany`; here they are skipped and the callers
below always supply it). -/
def applyBatch (spec : UpsertSpec) (now : ℚ) : List Row → List Row → List Row
  | [], t => t
  | r :: rs, t =>
    match r.lookup spec.conflictKey with
    | none => applyBatch spec now rs t
    | some v => applyBatch spec now rs (insertOrUpdate spec v r now t)

/-- Observable events on the pooled connection, in issue order. -/
inductive DbEvent where
  | connect
  | beginTxn
  | stmt (r : Row)
  | commitTxn
  | rollbackTxn
  | release
deriving DecidableEq

/-- One record's statement inside the transaction. `fails r` models the
storage layer raising on that record (constraint violation, malformed
statement); a record missing the conflict-target column is likewise a
statement error. -/
def execUpsert (spec : UpsertSpec) (fails : Row → Bool) (now : ℚ) (r : Row)
    (table : List Row) : Option (List Row) :=
  if fails r then none
  else
    match r.lookup spec.conflictKey with
    | none => none
    | some v => some (insertOrUpdate spec v r now table)

/-- The `for (const record of records)` loop body of `upsertMany`: issues one
statement per record against the transaction-local view `work`, stopping at
the first statement error. Returns the issued statement events and the final
view (`none` on error). -/
def runLoop (spec : UpsertSpec) (fails : Row → Bool) (now : ℚ) :
    List Row → List Row → List DbEvent × Option (List Row)
  | [], work => ([], some work)
  | r :: rs, work =>
    match execUpsert spec fails now r work with
    | none => ([DbEvent.stmt r], none)
    | some w =>
      let rest := runLoop spec fails now rs w
      (DbEvent.stmt r :: rest.1, rest.2)

/-- Outcome of one `upsertMany` call: the committed store, the events issued
on the pooled connection, whether the connection was released, and whether an
error was re-raised to the caller. -/
structure ExecResult where
  store : List Row
  events : List DbEvent
  released : Bool
  errored : Bool
deriving DecidableEq

/-- `upsertMany` (`Unit.js` lines 9-44 and its clones): check out a pooled
client, `BEGIN`, loop over the records, `COMMIT`; on any error `ROLLBACK`
(discarding the transaction-local work, so the committed store is unchanged)
and re-raise; in all cases `finally { client.release() }`. -/
def upsertMany (spec : UpsertSpec) (fails : Row → Bool) (now : ℚ)
    (records : List Row) (store : List Row) : ExecResult :=
  let run := runLoop spec fails now records store
  match run.2 with
  | some w =>
    { store := w
      events := [DbEvent.connect, DbEvent.beginTxn] ++ run.1
                  ++ [DbEvent.commitTxn, DbEvent.release]
      released := true
      errored := false }
  | none =>
    { store := store
      events := [DbEvent.connect, DbEvent.beginTxn] ++ run.1
                  ++ [DbEvent.rollbackTxn, DbEvent.release]
      released := true
      errored := true }

/-- `BigQuerySync.saveToDatabase`: `if (!data || data.length === 0) return;`
— an empty batch returns before any model call; otherwise delegates to the
model's `upsertMany`. -/
def saveToDatabase (spec : UpsertSpec) (fails : Row → Bool) (now : ℚ)
    (data : List Row) (store : List Row) : ExecResult :=
  if data.isEmpty then
    { store := store, events := [], released := true, errored := false }
  else
    upsertMany spec fails now data store

/-! ## Model-instance wiring (`src/models/BaseModel.js`)

`BaseModel` reads the pool with `const { pool } = require('../config/database')`
— a module-level binding — and its constructor assigns only `this.tableName`.
Every subclass constructor is exactly `super('<table>')`. So no `pool`
property ever exists on an instance and `this.pool` evaluates to `undefined`;
`this.pool.connect()` then throws a `TypeError` before any statement. -/

/-- An instance produced by `new <Model>()`: the only own property the
constructor chain assigns is `tableName`. -/
def mkModelInstance (tableName : String) : Row :=
  [("tableName", JSVal.str tableName)]

/-- The entry of a subclass `upsertMany` as actually wired: evaluate
`this.pool` and call `.connect()` on it. Member access on `undefined` or
`null` throws a `TypeError`; otherwise the transaction body runs. -/
def upsertManyJS (this : Row) (spec : UpsertSpec) (fails : Row → Bool)
    (now : ℚ) (records : List Row) (store : List Row) :
    Except String ExecResult :=
  match getProp this "pool" with
  | JSVal.undefined => Except.error "TypeError"
  | JSVal.null => Except.error "TypeError"
  | _ => Except.ok (upsertMany spec fails now records store)

/-! ## Field normalizer (`src/services/BigQuerySync.js` lines 33-51) -/

/-- Value of a decimal digit character. -/
def digitVal (c : Char) : Option Nat :=
  if c.isDigit then some (c.toNat - 48) else none

/-- Parse a non-empty all-digit character run. -/
def parseDigits (cs : List Char) : Option Nat :=
  match cs with
  | [] => none
  | _ =>
    cs.foldl
      (fun acc c =>
        match acc, digitVal c with
        | some n, some d => some (n * 10 + d)
        | _, _ => none)
      (some 0)

/-- Parse `digits` or `digits.digits` as an exact rational. -/
def parseUnsignedDecimal (cs : List Char) : Option ℚ :=
  let intPart := cs.takeWhile (fun c => c ≠ '.')
  match cs.dropWhile (fun c => c ≠ '.') with
  | [] => (parseDigits intPart).map (fun n => (n : ℚ))
  | _ :: frac =>
    match parseDigits intPart, parseDigits frac with
    | some ip, some fp => some ((ip : ℚ) + (fp : ℚ) / ((10 : ℚ) ^ frac.length))
    | _, _ => none

/-- Decimal numeric literal with optional sign, as `parseFloat` reads the
strings the warehouse delivers (`"12.5"`, `"-3"`, ...). -/
def parseNumberLit (s : String) : Option ℚ :=
  match s.toList with
  | [] => none
  | '-' :: rest => (parseUnsignedDecimal rest).map Neg.neg
  | '+' :: rest => parseUnsignedDecimal rest
  | cs => parseUnsignedDecimal cs

/-- `parseFloat(v)`: numbers pass through, parseable numeric strings yield
their value, everything else is `NaN`. -/
def jsParseFloat (v : JSVal) : JSVal :=
  match v with
  | .num q => .num q
  | .str s =>
    match parseNumberLit s with
    | some q => .num q
    | none => .nan
  | _ => .nan

/-- `processDateField(row, field)`:
`if (row[field] && typeof row[field] === 'object' && row[field].value)
   return row[field].value; return row[field];` -/
def processDateField (row : Row) (field : String) : JSVal :=
  match getProp row field with
  | .obj fields =>
    let inner := (fields.lookup "value").getD .undefined
    if jsTruthyPrim inner then inner.toVal else .obj fields
  | v => v

/-- `processNumericField(row, field)`:
`if (row[field]) return parseFloat(row[field]); return row[field];` -/
def processNumericField (row : Row) (field : String) : JSVal :=
  let v := getProp row field
  if jsTruthy v then jsParseFloat v else v

/-! ## Tenant good-standing derivations

Two sync paths derive `is_good_standing`:
`determineGoodStanding` (`src/middleware/gmbAuth.js` lines 158-160):
`tenant.payment_status === 'current' && !tenant.auction_status && tenant.balance <= 0`
and `syncTenantData` (`src/services/BigQuerySync.js` lines 761-762):
`const isGoodStanding = row.payment_status === 'current';`. -/

/-- JS strict equality of a value against a string literal. -/
def jsStrictEqString (v : JSVal) (s : String) : Bool :=
  match v with
  | .str t => t == s
  | _ => false

/-- JS `ToNumber` coercion (`none` models `NaN`). -/
def jsToNumber (v : JSVal) : Option ℚ :=
  match v with
  | .null => some 0
  | .undefined => none
  | .nan => none
  | .bool b => some (if b then 1 else 0)
  | .num q => some q
  | .str s => if s = "" then some 0 else parseNumberLit s
  | .obj _ => none

/-- The JS comparison `v <= 0` (false when either side coerces to `NaN`). -/
def jsLeZero (v : JSVal) : Bool :=
  match jsToNumber v with
  | some q => decide (q ≤ 0)
  | none => false

/-- `determineGoodStanding` from `gmbAuth.js`. -/
def determineGoodStanding (tenant : Row) : Bool :=
  jsStrictEqString (getProp tenant "payment_status") "current"
    && !(jsTruthy (getProp tenant "auction_status"))
    && jsLeZero (getProp tenant "balance")

/-- The good-standing value `syncTenantData` in `BigQuerySync.js` actually
stores: `row.payment_status === 'current'` alone. -/
def syncTenantGoodStanding (row : Row) : Bool :=
  jsStrictEqString (getProp row "payment_status") "current"

/-- Typed view of the tenant fields the good-standing derivation reads,
used to state the spec-level derivation independently of the JS encoding. -/
structure TenantView where
  payment_status : String
  auction_active : Bool
  balance : ℚ

/-- Encode a tenant view as the JS row the sync code receives. -/
def TenantView.toRow (t : TenantView) : Row :=
  [("payment_status", JSVal.str t.payment_status),
   ("auction_status", JSVal.bool t.auction_active),
   ("balance", JSVal.num t.balance)]

/-- The spec's wording of the derived boolean: payment status is `current`
AND no active auction status AND balance ≤ 0. -/
def specGoodStanding (t : TenantView) : Bool :=
  (t.payment_status == "current") && !t.auction_active && decide (t.balance ≤ 0)

/-! ## Metrics and health (`src/utils/metrics.js`) -/

/-- One tracked sync category (`metrics.cubby.sync.facilities` /
`.tenants`): counters, the `lastSync` timestamp (milliseconds), and the
rolling duration window. -/
structure SyncCategory where
  total : Nat
  success : Nat
  failure : Nat
  lastSync : Option Int
  duration : List Nat
deriving DecidableEq

/-- The constructor-time state of a sync category. -/
def SyncCategory.init : SyncCategory :=
  { total := 0, success := 0, failure := 0, lastSync := none, duration := [] }

/-- `trackFacilitySync` / `trackTenantSync` (`metrics.js` lines 71-103): bump
the counters, set `lastSync = new Date()` — on success AND on failure — push
the duration, and `shift()` when more than 100 samples are held. -/
def trackSync (ok : Bool) (durationMs : Nat) (now : Int) (m : SyncCategory) :
    SyncCategory :=
  let m1 : SyncCategory :=
    { total := m.total + 1
      success := if ok then m.success + 1 else m.success
      failure := if ok then m.failure else m.failure + 1
      lastSync := some now
      duration := m.duration ++ [durationMs] }
  if m1.duration.length > 100 then { m1 with duration := m1.duration.tail } else m1

/-- Six hours in milliseconds, the freshness window of `getHealthStatus`. -/
def sixHoursMs : Int := 6 * 60 * 60 * 1000

/-- The per-category test in `getHealthStatus` (`metrics.js` lines 144-145):
`sync.lastSync && sync.lastSync > sixHoursAgo`. -/
def categoryHealthy (now : Int) (m : SyncCategory) : Bool :=
  match m.lastSync with
  | none => false
  | some t => decide (now - sixHoursMs < t)

/-- The per-category `status` string `getHealthStatus` reports. -/
def categoryStatus (now : Int) (m : SyncCategory) : String :=
  if categoryHealthy now m then "healthy" else "unhealthy"

/-- A category's state after a sequence of tracked runs
`(success?, durationMs, timestamp)` starting from the initial state. -/
def runHistory (events : List (Bool × Nat × Int)) : SyncCategory :=
  events.foldl (fun m e => trackSync e.1 e.2.1 e.2.2 m) SyncCategory.init

/-! ## Retry/backoff executor -/

/-- Modelled from the spec: the retry/backoff executor (`withRetry`) of
spec section 4.3 is not present under `src/` (the repository docs only
instruct to "implement retry logic"); its contract is modelled from the
spec's words: up to `maxAttempts` (default 3) attempts, a sleep of
`min(initialDelay * backoffFactor^(attempt-1), maxDelay)` between attempts,
terminal failures raised immediately, and exhaustion raising the last error
tagged with the operation label and the attempt count. -/
structure RetryConfig where
  maxAttempts : Nat
  initialDelay : Nat
  backoffFactor : Nat
  maxDelay : Nat
deriving DecidableEq

/-- Modelled from the spec: the default configuration (3 attempts, 1000ms
initial delay, factor 2, 10000ms cap). -/
def defaultRetryConfig : RetryConfig :=
  { maxAttempts := 3, initialDelay := 1000, backoffFactor := 2, maxDelay := 10000 }

/-- Modelled from the spec: the failure classes the executor distinguishes. -/
inductive FailKind where
  | clientError
  | authFailure
  | networkError
  | timeoutError
  | serverError
deriving DecidableEq

/-- Modelled from the spec: client errors (malformed request) and
authentication failures are terminal; network, timeout and server errors are
retryable. -/
def isTerminalFailure : FailKind → Bool
  | .clientError => true
  | .authFailure => true
  | _ => false

/-- Modelled from the spec: what the executor raises — a terminal failure is
re-raised as-is and immediately; an exhausted retry raises the last error
tagged with the operation label and the attempt count. -/
inductive RetryError where
  | terminal (e : FailKind)
  | exhausted (label : String) (attempts : Nat) (e : FailKind)
deriving DecidableEq

deriving instance DecidableEq for Except

/-- Result of a `withRetry` run: the outcome, the sleeps performed between
attempts (in order, milliseconds), and the number of attempts consumed. -/
structure RetryOutcome (α : Type) where
  result : Except RetryError α
  sleeps : List Nat
  attempts : Nat

/-- Modelled from the spec: the delay slept after a failed attempt number
`attempt`: `min(initialDelay * backoffFactor^(attempt-1), maxDelay)`. -/
def retryDelay (cfg : RetryConfig) (attempt : Nat) : Nat :=
  min (cfg.initialDelay * cfg.backoffFactor ^ (attempt - 1)) cfg.maxDelay

/-- Modelled from the spec: the attempt loop. `op n` is the outcome of
attempt number `n`; `fuel` is the number of retries still allowed. -/
def withRetryAux (cfg : RetryConfig) (label : String)
    (op : Nat → Except FailKind α) : Nat → Nat → RetryOutcome α
  | attempt, fuel =>
    match op attempt with
    | Except.ok a => { result := Except.ok a, sleeps := [], attempts := 1 }
    | Except.error e =>
      if isTerminalFailure e then
        { result := Except.error (RetryError.terminal e), sleeps := [], attempts := 1 }
      else
        match fuel with
        | 0 =>
          { result := Except.error (RetryError.exhausted label attempt e)
            sleeps := [], attempts := 1 }
        | fuel1 + 1 =>
          let rest := withRetryAux cfg label op (attempt + 1) fuel1
          { result := rest.result
            sleeps := retryDelay cfg attempt :: rest.sleeps
            attempts := rest.attempts + 1 }

/-- Modelled from the spec: `withRetry(operation, label)` starting at attempt
1 with `maxAttempts - 1` retries in reserve. -/
def withRetry (cfg : RetryConfig) (label : String)
    (op : Nat → Except FailKind α) : RetryOutcome α :=
  withRetryAux cfg label op 1 (cfg.maxAttempts - 1)

/-! ## Webhook signature verification (`src/routes/cubby.js`) -/

/-- How the `POST /webhook` route answers. -/
inductive WebhookResponse where
  | ok200
  | unauthorized401
  | serverError500
deriving DecidableEq

/-- `crypto.timingSafeEqual(Buffer.from(a), Buffer.from(b))`: throws when the
byte lengths differ, else compares contents in constant time. -/
def timingSafeEqual (a b : String) : Except Unit Bool :=
  if a.utf8ByteSize = b.utf8ByteSize then Except.ok (a == b) else Except.error ()

/-- `verifyWebhookSignature(signature, payload)` (`cubby.js` lines 123-131):
compare the header against the HMAC-SHA256 hex digest of
`JSON.stringify(payload)` with `timingSafeEqual`. `digestHex` stands for the
computed 64-character hex digest. -/
def verifyWebhookSignature (signature digestHex : String) : Except Unit Bool :=
  timingSafeEqual signature digestHex

/-- The `POST /webhook` handler (`cubby.js` lines 9-24):
`if (!signature || !verifyWebhookSignature(...)) return 401`; a thrown
exception reaches the route's `catch` and answers 500; a verified request is
processed and answered 200. -/
def webhookHandler (digestHex : String) (signature : Option String) :
    WebhookResponse :=
  match signature with
  | none => WebhookResponse.unauthorized401
  | some s =>
    if s = "" then WebhookResponse.unauthorized401
    else
      match verifyWebhookSignature s digestHex with
      | Except.error _ => WebhookResponse.serverError500
      | Except.ok true => WebhookResponse.ok200
      | Except.ok false => WebhookResponse.unauthorized401

/-! ## Helper lemmas on rows and column updates -/

theorem lookup_cons_eq (k : String) (b : JSVal) (l : Row) (c : String) :
    ((k, b) :: l).lookup c = if c = k then some b else l.lookup c := by
  by_cases h : c = k <;> simp [List.lookup, h, beq_false_of_ne]

theorem getLast?_append_two {α : Type} (l : List α) (a b : α) :
    (l ++ [a, b]).getLast? = some b := by
  rw [List.getLast?_append_cons]; rfl

theorem lookup_isSome_iff_mem_keys (r : Row) (c : String) :
    (r.lookup c).isSome ↔ c ∈ rowKeys r := by
  rw [List.lookup_isSome_iff]
  constructor
  · rintro ⟨b, hb, hc⟩
    have hc2 : c = b.1 := by simpa using hc
    exact List.mem_map.mpr ⟨b, hb, hc2.symm⟩
  · intro h
    rcases List.mem_map.mp h with ⟨p, hp, hc⟩
    exact ⟨p, hp, by simp [hc]⟩

theorem mem_keys_of_lookup {r : Row} {c : String} {v : JSVal}
    (h : r.lookup c = some v) : c ∈ rowKeys r :=
  (lookup_isSome_iff_mem_keys r c).mp (by simp [h])

theorem not_mem_keys_of_lookup_none {r : Row} {c : String}
    (h : r.lookup c = none) : c ∉ rowKeys r := by
  intro hmem
  have := (lookup_isSome_iff_mem_keys r c).mpr hmem
  simp [h] at this

theorem getProp_eq_of_mem {r : Row} {c : String} (h : c ∈ rowKeys r) :
    some (getProp r c) = r.lookup c := by
  have := (lookup_isSome_iff_mem_keys r c).mpr h
  rcases Option.isSome_iff_exists.mp this with ⟨v, hv⟩
  simp [getProp, hv]

theorem lookup_map_set_self (row : Row) (c : String) (v : JSVal)
    (h : (row.lookup c).isSome) :
    (row.map (fun p => if p.1 = c then (c, v) else p)).lookup c = some v := by
  induction row with
  | nil => simp [List.lookup] at h
  | cons p rest ih =>
    rw [show p = (p.1, p.2) from rfl, lookup_cons_eq] at h
    by_cases hp : p.1 = c
    · rw [List.map_cons, if_pos hp, lookup_cons_eq, if_pos rfl]
    · rw [List.map_cons, if_neg hp,
        show p = (p.1, p.2) from rfl, lookup_cons_eq, if_neg (fun hc => hp hc.symm)]
      refine ih ?_
      rwa [if_neg (fun hc => hp hc.symm)] at h

theorem lookup_append_single_self (row : Row) (c : String) (v : JSVal)
    (h : row.lookup c = none) :
    (row ++ [(c, v)]).lookup c = some v := by
  induction row with
  | nil => simp [List.lookup]
  | cons p rest ih =>
    rw [show p = (p.1, p.2) from rfl, lookup_cons_eq] at h
    by_cases hp : c = p.1
    · simp [hp] at h
    · rw [List.cons_append, show p = (p.1, p.2) from rfl, lookup_cons_eq, if_neg hp]
      rw [if_neg hp] at h
      exact ih h

theorem lookup_map_set_other (row : Row) (c c' : String) (v : JSVal)
    (h : c' ≠ c) :
    (row.map (fun p => if p.1 = c then (c, v) else p)).lookup c' = row.lookup c' := by
  induction row with
  | nil => rfl
  | cons p rest ih =>
    by_cases hp : p.1 = c
    · rw [List.map_cons, if_pos hp, lookup_cons_eq, if_neg h,
        show p = (p.1, p.2) from rfl, lookup_cons_eq, if_neg (hp ▸ h), ih]
    · rw [List.map_cons, if_neg hp,
        show p = (p.1, p.2) from rfl, lookup_cons_eq, lookup_cons_eq]
      by_cases hc : c' = p.1
      · simp [hc]
      · rw [if_neg hc, if_neg hc, ih]

theorem lookup_append_single_other (row : Row) (c c' : String) (v : JSVal)
    (h : c' ≠ c) :
    (row ++ [(c, v)]).lookup c' = row.lookup c' := by
  induction row with
  | nil => simp [List.lookup, beq_false_of_ne h]
  | cons p rest ih =>
    rw [List.cons_append, show p = (p.1, p.2) from rfl, lookup_cons_eq, lookup_cons_eq]
    by_cases hc : c' = p.1
    · simp [hc]
    · rw [if_neg hc, if_neg hc, ih]

theorem setCol_lookup_self (row : Row) (c : String) (v : JSVal) :
    (setCol row c v).lookup c = some v := by
  unfold setCol
  by_cases h : (row.lookup c).isSome
  · rw [if_pos h]; exact lookup_map_set_self row c v h
  · rw [if_neg h]
    exact lookup_append_single_self row c v (Option.not_isSome_iff_eq_none.mp h)

theorem setCol_lookup_other (row : Row) (c c' : String) (v : JSVal) (h : c' ≠ c) :
    (setCol row c v).lookup c' = row.lookup c' := by
  unfold setCol
  by_cases hs : (row.lookup c).isSome
  · rw [if_pos hs]; exact lookup_map_set_other row c c' v h
  · rw [if_neg hs]; exact lookup_append_single_other row c c' v h

theorem foldl_setCol_lookup (r : Row) (cols : List String) (c : String) (row0 : Row) :
    ((cols.foldl (fun acc k => setCol acc k (getProp r k)) row0).lookup c) =
      if c ∈ cols then some (getProp r c) else row0.lookup c := by
  induction cols generalizing row0 with
  | nil => simp
  | cons d ds ih =>
    rw [List.foldl_cons, ih]
    by_cases hds : c ∈ ds
    · rw [if_pos hds, if_pos (List.mem_cons_of_mem _ hds)]
    · rw [if_neg hds]
      by_cases hcd : c = d
      · subst hcd
        rw [setCol_lookup_self, if_pos (List.mem_cons_self c ds)]
      · rw [setCol_lookup_other _ _ _ _ hcd, if_neg (by simp [List.mem_cons, hcd, hds])]

theorem applyUpdate_lookup_updated_at (spec : UpsertSpec) (r : Row) (now : ℚ)
    (row0 : Row) :
    (applyUpdate spec r now row0).lookup "updated_at" = some (JSVal.num now) :=
  setCol_lookup_self _ _ _

theorem applyUpdate_lookup_assign (spec : UpsertSpec) (r : Row) (now : ℚ)
    (row0 : Row) {c : String} (hc : c ∈ updateAssignCols spec r)
    (hne : c ≠ "updated_at") :
    (applyUpdate spec r now row0).lookup c = some (getProp r c) := by
  unfold applyUpdate
  rw [setCol_lookup_other _ _ _ _ hne, foldl_setCol_lookup, if_pos hc]

theorem applyUpdate_lookup_other (spec : UpsertSpec) (r : Row) (now : ℚ)
    (row0 : Row) {c : String} (hc : c ∉ updateAssignCols spec r)
    (hne : c ≠ "updated_at") :
    (applyUpdate spec r now row0).lookup c = row0.lookup c := by
  unfold applyUpdate
  rw [setCol_lookup_other _ _ _ _ hne, foldl_setCol_lookup, if_neg hc]

theorem applyUpdate_key_preserved (spec : UpsertSpec) {r row0 : Row} {v : JSVal}
    (now : ℚ) (hr : r.lookup spec.conflictKey = some v)
    (hrow : row0.lookup spec.conflictKey = some v)
    (hk : spec.conflictKey ≠ "updated_at") :
    (applyUpdate spec r now row0).lookup spec.conflictKey = some v := by
  by_cases hc : spec.conflictKey ∈ updateAssignCols spec r
  · rw [applyUpdate_lookup_assign spec r now row0 hc hk,
      getProp_eq_of_mem (mem_keys_of_lookup hr)]
    exact hr
  · rw [applyUpdate_lookup_other spec r now row0 hc hk]
    exact hrow

theorem filterKey_cons (spec : UpsertSpec) (v : JSVal) (row : Row) (t : List Row) :
    filterKey spec v (row :: t) =
      if row.lookup spec.conflictKey = some v then row :: filterKey spec v t
      else filterKey spec v t := by
  by_cases h : row.lookup spec.conflictKey = some v <;>
    simp [filterKey, List.filter_cons, h]

theorem filterKey_insertOrUpdate_self (spec : UpsertSpec) {r : Row} {v : JSVal}
    (now : ℚ) (t : List Row) (hr : r.lookup spec.conflictKey = some v)
    (hk : spec.conflictKey ≠ "updated_at") :
    filterKey spec v (insertOrUpdate spec v r now t) =
      match filterKey spec v t with
      | [] => [r]
      | row0 :: rest => applyUpdate spec r now row0 :: rest := by
  induction t with
  | nil =>
    unfold insertOrUpdate
    simp [filterKey, List.filter_cons, hr]
  | cons row t' ih =>
    by_cases hm : row.lookup spec.conflictKey = some v
    · unfold insertOrUpdate
      rw [if_pos hm, filterKey_cons, filterKey_cons,
        if_pos (applyUpdate_key_preserved spec now hr hm hk), if_pos hm]
    · unfold insertOrUpdate
      rw [if_neg hm, filterKey_cons, filterKey_cons, if_neg hm, if_neg hm, ih]

theorem filterKey_insertOrUpdate_other (spec : UpsertSpec) {r : Row} {v v' : JSVal}
    (now : ℚ) (t : List Row) (hr : r.lookup spec.conflictKey = some v)
    (hk : spec.conflictKey ≠ "updated_at") (hv : v' ≠ v) :
    filterKey spec v' (insertOrUpdate spec v r now t) = filterKey spec v' t := by
  induction t with
  | nil =>
    unfold insertOrUpdate
    simp only [filterKey, List.filter_cons, hr, List.filter_nil]
    simp only [Option.some.injEq, decide_eq_true_eq, List.filter_eq_nil_iff]
    simp
    exact fun h => hv h.symm
  | cons row t' ih =>
    by_cases hm : row.lookup spec.conflictKey = some v
    · unfold insertOrUpdate
      rw [if_pos hm, filterKey_cons, filterKey_cons,
        if_neg (by rw [applyUpdate_key_preserved spec now hr hm hk]
                   exact fun h => hv (Option.some_injective _ h).symm),
        if_neg (by rw [hm]; exact fun h => hv (Option.some_injective _ h).symm)]
    · unfold insertOrUpdate
      rw [if_neg hm, filterKey_cons, filterKey_cons, ih]

theorem length_insertOrUpdate (spec : UpsertSpec) {r : Row} {v : JSVal}
    (now : ℚ) (t : List Row) (_hr : r.lookup spec.conflictKey = some v) :
    (insertOrUpdate spec v r now t).length =
      if filterKey spec v t = [] then t.length + 1 else t.length := by
  induction t with
  | nil => simp [insertOrUpdate, filterKey]
  | cons row t' ih =>
    by_cases hm : row.lookup spec.conflictKey = some v
    · unfold insertOrUpdate
      rw [if_pos hm, filterKey_cons, if_pos hm]
      simp
    · unfold insertOrUpdate
      rw [if_neg hm, filterKey_cons, if_neg hm]
      simp only [List.length_cons, ih]
      by_cases he : filterKey spec v t' = [] <;> simp [he]

theorem runLoop_neverFails (spec : UpsertSpec) (now : ℚ) (records t : List Row)
    (hkeys : ∀ r ∈ records, (r.lookup spec.conflictKey).isSome) :
    runLoop spec (fun _ => false) now records t =
      (records.map DbEvent.stmt, some (applyBatch spec now records t)) := by
  induction records generalizing t with
  | nil => rfl
  | cons r rs ih =>
    rcases Option.isSome_iff_exists.mp (hkeys r (List.mem_cons_self r rs)) with ⟨v, hv⟩
    unfold runLoop execUpsert
    simp only [if_neg (by simp : ¬(false = true)), hv]
    rw [ih _ (fun r' hr' => hkeys r' (List.mem_cons_of_mem r hr'))]
    simp [applyBatch, hv]

theorem filterKey_applyBatch_untouched (spec : UpsertSpec) (now : ℚ)
    (records : List Row) (t : List Row) {v' : JSVal}
    (hk : spec.conflictKey ≠ "updated_at")
    (h : ∀ r ∈ records, r.lookup spec.conflictKey ≠ some v') :
    filterKey spec v' (applyBatch spec now records t) = filterKey spec v' t := by
  induction records generalizing t with
  | nil => rfl
  | cons r rs ih =>
    unfold applyBatch
    cases hv : r.lookup spec.conflictKey with
    | none => exact ih _ (fun r' hr' => h r' (List.mem_cons_of_mem r hr'))
    | some v =>
      rw [ih _ (fun r' hr' => h r' (List.mem_cons_of_mem r hr'))]
      refine filterKey_insertOrUpdate_other spec now t hv hk ?_
      intro he
      exact h r (List.mem_cons_self r rs) (he ▸ hv)

theorem filterKey_applyBatch_self (spec : UpsertSpec) (now : ℚ)
    (records : List Row) (t : List Row) {r : Row} {v : JSVal}
    (hk : spec.conflictKey ≠ "updated_at")
    (hnodup : (records.map (fun r' => r'.lookup spec.conflictKey)).Nodup)
    (hmem : r ∈ records) (hr : r.lookup spec.conflictKey = some v) :
    filterKey spec v (applyBatch spec now records t) =
      match filterKey spec v t with
      | [] => [r]
      | row0 :: rest => applyUpdate spec r now row0 :: rest := by
  induction records generalizing t with
  | nil => cases hmem
  | cons r0 rs ih =>
    have hn : r0.lookup spec.conflictKey ∉
          rs.map (fun r' => r'.lookup spec.conflictKey) ∧
        (rs.map (fun r' => r'.lookup spec.conflictKey)).Nodup := by
      rw [List.map_cons] at hnodup
      exact List.nodup_cons.mp hnodup
    rcases List.mem_cons.mp hmem with rfl | hmem2
    · unfold applyBatch
      rw [hr]
      have hnot : ∀ r' ∈ rs, r'.lookup spec.conflictKey ≠ some v := by
        intro r' hr' heq
        exact hn.1 (hr ▸ List.mem_map.mpr ⟨r', hr', heq⟩)
      rw [filterKey_applyBatch_untouched spec now rs _ hk hnot]
      exact filterKey_insertOrUpdate_self spec now t hr hk
    · unfold applyBatch
      cases hv0 : r0.lookup spec.conflictKey with
      | none => exact ih t hn.2 hmem2
      | some v0 =>
        have hvv : v0 ≠ v := by
          rintro rfl
          exact hn.1 (hv0 ▸ List.mem_map.mpr ⟨r, hmem2, hr⟩)
        rw [ih (insertOrUpdate spec v0 r0 now t) hn.2 hmem2,
          filterKey_insertOrUpdate_other spec now t hv0 hk (fun h => hvv h.symm)]

theorem length_applyBatch_present (spec : UpsertSpec) (now : ℚ)
    (records : List Row) (t : List Row)
    (hk : spec.conflictKey ≠ "updated_at")
    (hpresent : ∀ r ∈ records, ∀ v, r.lookup spec.conflictKey = some v →
      filterKey spec v t ≠ []) :
    (applyBatch spec now records t).length = t.length := by
  induction records generalizing t with
  | nil => rfl
  | cons r rs ih =>
    unfold applyBatch
    cases hv : r.lookup spec.conflictKey with
    | none =>
      exact ih t (fun r' hr' => hpresent r' (List.mem_cons_of_mem r hr'))
    | some v =>
      have htail : ∀ r' ∈ rs, ∀ v', r'.lookup spec.conflictKey = some v' →
          filterKey spec v' (insertOrUpdate spec v r now t) ≠ [] := by
        intro r' hr' v' hv'
        by_cases hveq : v' = v
        · subst hveq
          rw [filterKey_insertOrUpdate_self spec now t hv hk]
          cases filterKey spec v' t <;> simp
        · rw [filterKey_insertOrUpdate_other spec now t hv hk hveq]
          exact hpresent r' (List.mem_cons_of_mem r hr') v' hv'
      rw [ih (insertOrUpdate spec v r now t) htail,
        length_insertOrUpdate spec now t hv,
        if_neg (hpresent r (List.mem_cons_self r rs) v hv)]

theorem upsertMany_neverFails (spec : UpsertSpec) (now : ℚ)
    (records store : List Row)
    (hkeys : ∀ r ∈ records, (r.lookup spec.conflictKey).isSome) :
    upsertMany spec (fun _ => false) now records store =
      { store := applyBatch spec now records store
        events := [DbEvent.connect, DbEvent.beginTxn] ++ records.map DbEvent.stmt
                    ++ [DbEvent.commitTxn, DbEvent.release]
        released := true
        errored := false } := by
  unfold upsertMany
  rw [runLoop_neverFails spec now records store hkeys]

theorem mem_filterKey_lookup {spec : UpsertSpec} {v : JSVal} {t : List Row}
    {row : Row} (h : row ∈ filterKey spec v t) :
    row.lookup spec.conflictKey = some v := by
  have := List.mem_filter.mp h
  exact of_decide_eq_true this.2

theorem withRetryAux_attempts_le {α : Type} (cfg : RetryConfig) (label : String)
    (op : Nat → Except FailKind α) (f a : Nat) :
    (withRetryAux cfg label op a f).attempts ≤ f + 1 := by
  induction f generalizing a with
  | zero =>
    unfold withRetryAux
    cases op a with
    | ok x => simp
    | error e => by_cases h : isTerminalFailure e <;> simp [h]
  | succ f1 ih =>
    unfold withRetryAux
    cases op a with
    | ok x => simp
    | error e =>
      by_cases h : isTerminalFailure e
      · simp [h]
      · simp only [h, Bool.false_eq_true, if_false]
        have := ih (a + 1)
        omega

theorem withRetryAux_sleeps {α : Type} (cfg : RetryConfig) (label : String)
    (op : Nat → Except FailKind α) (f a i : Nat) (d : Nat)
    (h : (withRetryAux cfg label op a f).sleeps.get? i = some d) :
    d = retryDelay cfg (a + i) := by
  induction f generalizing a i with
  | zero =>
    unfold withRetryAux at h
    cases hop : op a with
    | ok x => rw [hop] at h; simp at h
    | error e =>
      rw [hop] at h
      by_cases ht : isTerminalFailure e <;> simp [ht] at h
  | succ f1 ih =>
    unfold withRetryAux at h
    cases hop : op a with
    | ok x => rw [hop] at h; simp at h
    | error e =>
      rw [hop] at h
      by_cases ht : isTerminalFailure e
      · simp [ht] at h
      · simp only [ht, Bool.false_eq_true, if_false] at h
        cases i with
        | zero =>
          simp at h
          rw [← h, Nat.add_zero]
        | succ i1 =>
          simp only [List.get?_cons_succ] at h
          have := ih (a + 1) i1 h
          rw [this]
          congr 1
          omega

theorem trackSync_lastSync (ok : Bool) (durationMs : Nat) (now : Int)
    (m : SyncCategory) : (trackSync ok durationMs now m).lastSync = some now := by
  unfold trackSync
  split <;> (dsimp only; split <;> rfl)

theorem lastSync_foldl (events : List (Bool × Nat × Int)) (m : SyncCategory) :
    (events.foldl (fun acc e => trackSync e.1 e.2.1 e.2.2 acc) m).lastSync =
      match events.getLast? with
      | none => m.lastSync
      | some e => some e.2.2 := by
  induction events generalizing m with
  | nil => rfl
  | cons e es ih =>
    rw [List.foldl_cons, ih]
    cases es with
    | nil => simp [trackSync_lastSync]
    | cons e2 es2 =>
      rw [List.getLast?_cons_cons]
      cases h2 : (e2 :: es2).getLast? with
      | none => simp at h2
      | some x => rfl

/-! ## Claim C1 -/

/-- C1: for every non-empty batch passed to a model's `upsertMany`, if
processing any record raises an error the transaction is rolled back so that
none of the batch's records are committed (the store is unchanged), and the
pooled connection is released on every exit path — the event trace always
ends in `release` — before the error is re-raised (`errored = true`). -/
theorem upsertMany_rollback_and_release (spec : UpsertSpec) (fails : Row → Bool)
    (now : ℚ) (records store : List Row) (_hne : records ≠ []) :
    (upsertMany spec fails now records store).released = true ∧
    (upsertMany spec fails now records store).events.getLast? = some DbEvent.release ∧
    ((upsertMany spec fails now records store).errored = true →
      (upsertMany spec fails now records store).store = store ∧
      DbEvent.rollbackTxn ∈ (upsertMany spec fails now records store).events) := by
  rcases hrl : runLoop spec fails now records store with ⟨evs, res⟩
  unfold upsertMany
  rw [hrl]
  cases res with
  | none =>
    refine ⟨rfl, ?_, ?_⟩
    · exact getLast?_append_two _ _ _
    · intro _
      exact ⟨rfl, List.mem_append.mpr (Or.inr (List.mem_cons_self _ _))⟩
  | some w =>
    refine ⟨rfl, ?_, ?_⟩
    · exact getLast?_append_two _ _ _
    · intro hcontra
      exact absurd hcontra (by simp)

/-- C1 witness: a concrete two-record batch whose second record violates a
constraint: the call errors, the store is untouched, `ROLLBACK` was issued
and the connection released. -/
theorem upsertMany_rollback_and_release_witness :
    ([[("unit_id", JSVal.num 1)],
      [("unit_id", JSVal.num 2), ("boom", JSVal.bool true)]] : List Row) ≠ [] ∧
    (upsertMany unitSpec (fun r => (r.lookup "boom").isSome) 5
        [[("unit_id", JSVal.num 1)],
         [("unit_id", JSVal.num 2), ("boom", JSVal.bool true)]]
        [[("unit_id", JSVal.num 9)]]).errored = true ∧
    ((upsertMany unitSpec (fun r => (r.lookup "boom").isSome) 5
        [[("unit_id", JSVal.num 1)],
         [("unit_id", JSVal.num 2), ("boom", JSVal.bool true)]]
        [[("unit_id", JSVal.num 9)]]).released = true ∧
     (upsertMany unitSpec (fun r => (r.lookup "boom").isSome) 5
        [[("unit_id", JSVal.num 1)],
         [("unit_id", JSVal.num 2), ("boom", JSVal.bool true)]]
        [[("unit_id", JSVal.num 9)]]).events.getLast? = some DbEvent.release ∧
     ((upsertMany unitSpec (fun r => (r.lookup "boom").isSome) 5
        [[("unit_id", JSVal.num 1)],
         [("unit_id", JSVal.num 2), ("boom", JSVal.bool true)]]
        [[("unit_id", JSVal.num 9)]]).errored = true →
      (upsertMany unitSpec (fun r => (r.lookup "boom").isSome) 5
        [[("unit_id", JSVal.num 1)],
         [("unit_id", JSVal.num 2), ("boom", JSVal.bool true)]]
        [[("unit_id", JSVal.num 9)]]).store = [[("unit_id", JSVal.num 9)]] ∧
      DbEvent.rollbackTxn ∈ (upsertMany unitSpec (fun r => (r.lookup "boom").isSome) 5
        [[("unit_id", JSVal.num 1)],
         [("unit_id", JSVal.num 2), ("boom", JSVal.bool true)]]
        [[("unit_id", JSVal.num 9)]]).events)) :=
  ⟨by decide, by decide,
   upsertMany_rollback_and_release unitSpec (fun r => (r.lookup "boom").isSome) 5
     [[("unit_id", JSVal.num 1)],
      [("unit_id", JSVal.num 2), ("boom", JSVal.bool true)]]
     [[("unit_id", JSVal.num 9)]] (by decide)⟩

/-! ## Claim C2 -/

/-- C2: `BaseModel` imports the pool as a module-level binding and its
constructor chain assigns only `tableName`, so on every instance built by a
subclass constructor (`super('<table>')`) the property `this.pool` is
`undefined`, and `upsertMany` — which begins with `this.pool.connect()` —
throws a `TypeError` before issuing any database statement, for every model
table name and every batch. -/
theorem baseModel_pool_undefined_typeError (t : String) (spec : UpsertSpec)
    (fails : Row → Bool) (now : ℚ) (records store : List Row) :
    getProp (mkModelInstance t) "pool" = JSVal.undefined ∧
    upsertManyJS (mkModelInstance t) spec fails now records store =
      Except.error "TypeError" := by
  have h1 : getProp (mkModelInstance t) "pool" = JSVal.undefined := by
    unfold mkModelInstance getProp
    rw [lookup_cons_eq, if_neg (by decide)]
    rfl
  refine ⟨h1, ?_⟩
  unfold upsertManyJS
  rw [h1]

/-! ## Claim C3 -/

/-- C3 counterexample: the claim fails for `Payment.upsertMany` over an
initial store that already holds a row with the batch record's conflict-key
`id` but a different `payment_id`: because the conflict target is `id` while
the update clause excludes `payment_id`, running the batch twice leaves one
row whose `payment_id` is still the old `"X"`, not the payload's `"Y"` —
so not all non-key fields equal the second payload's values. -/
theorem payment_second_payload_counterexample :
    let r : Row := [("id", JSVal.num 1), ("payment_id", JSVal.str "Y"),
                    ("amount", JSVal.num 7)]
    let store0 : List Row := [[("id", JSVal.num 1), ("payment_id", JSVal.str "X"),
                               ("amount", JSVal.num 5)]]
    let s1 := (upsertMany paymentSpec (fun _ => false) 100 [r] store0).store
    let s2 := (upsertMany paymentSpec (fun _ => false) 200 [r] s1).store
    keyCount paymentSpec (JSVal.num 1) s2 = 1 ∧
    findKey paymentSpec (JSVal.num 1) s2 =
      some [("id", JSVal.num 1), ("payment_id", JSVal.str "X"),
            ("amount", JSVal.num 7), ("updated_at", JSVal.num 200)] ∧
    r.lookup "payment_id" = some (JSVal.str "Y") ∧
    JSVal.str "X" ≠ JSVal.str "Y" := by
  decide

/-- C3 (amended): upserting a batch twice is idempotent — exactly one row per
batch key, row count unchanged by the second run, all record columns equal to
the payload and `updated_at` refreshed — for every model whose exclusion
filter names only the conflict-target column and/or `updated_at` (Unit,
PricingGroup, Contact, CustomerTouch; Payment's filter names `payment_id`
while its conflict target is `id`, so for Payment this holds only when the
initial store has no row with a batch `id`, as in the counterexample). -/
theorem upsertMany_twice_idempotent (spec : UpsertSpec) (now1 now2 : ℚ)
    (records store0 : List Row)
    (hk : spec.conflictKey ≠ "updated_at")
    (hexcl : ∀ c ∈ spec.exclude, c = spec.conflictKey ∨ c = "updated_at")
    (hkeys : ∀ r ∈ records, (r.lookup spec.conflictKey).isSome)
    (hnodup : (records.map (fun r' => r'.lookup spec.conflictKey)).Nodup)
    (hupd : ∀ r ∈ records, r.lookup "updated_at" = none)
    (hstore : ∀ r ∈ records, ∀ v, r.lookup spec.conflictKey = some v →
      keyCount spec v store0 ≤ 1) :
    (upsertMany spec (fun _ => false) now1 records store0).errored = false ∧
    (upsertMany spec (fun _ => false) now2 records
      (upsertMany spec (fun _ => false) now1 records store0).store).errored = false ∧
    (upsertMany spec (fun _ => false) now2 records
        (upsertMany spec (fun _ => false) now1 records store0).store).store.length =
      (upsertMany spec (fun _ => false) now1 records store0).store.length ∧
    ∀ r ∈ records, ∀ v, r.lookup spec.conflictKey = some v →
      keyCount spec v (upsertMany spec (fun _ => false) now2 records
        (upsertMany spec (fun _ => false) now1 records store0).store).store = 1 ∧
      ∃ row, findKey spec v (upsertMany spec (fun _ => false) now2 records
          (upsertMany spec (fun _ => false) now1 records store0).store).store = some row ∧
        (∀ c ∈ rowKeys r, row.lookup c = r.lookup c) ∧
        row.lookup "updated_at" = some (JSVal.num now2) := by
  rw [upsertMany_neverFails spec now1 records store0 hkeys]
  simp only
  rw [upsertMany_neverFails spec now2 records _ hkeys]
  simp only
  set s1 := applyBatch spec now1 records store0 with hs1
  have key_s1 : ∀ r ∈ records, ∀ v, r.lookup spec.conflictKey = some v →
      ∃ w, filterKey spec v s1 = [w] := by
    intro r hr v hv
    have hf := filterKey_applyBatch_self spec now1 records store0 hk hnodup hr hv
    rw [← hs1] at hf
    have hc := hstore r hr v hv
    unfold keyCount at hc
    rcases he : filterKey spec v store0 with _ | ⟨row0, rest⟩
    · rw [he] at hf
      exact ⟨r, hf⟩
    · rw [he] at hf hc
      cases rest with
      | nil => exact ⟨applyUpdate spec r now1 row0, hf⟩
      | cons x xs =>
        exfalso
        simp [List.length_cons] at hc
  refine ⟨trivial, trivial, ?_, ?_⟩
  · refine length_applyBatch_present spec now2 records s1 hk ?_
    intro r hr v hv
    rcases key_s1 r hr v hv with ⟨w, hw⟩
    simp [hw]
  · intro r hr v hv
    rcases key_s1 r hr v hv with ⟨w, hw⟩
    have hf2 := filterKey_applyBatch_self spec now2 records s1 hk hnodup hr hv
    rw [hw] at hf2
    constructor
    · unfold keyCount
      rw [hf2]
      rfl
    · refine ⟨applyUpdate spec r now2 w, ?_, ?_, ?_⟩
      · unfold findKey
        rw [hf2]
        rfl
      · intro c hc
        have hcne : c ≠ "updated_at" := by
          intro hceq
          exact not_mem_keys_of_lookup_none (hupd r hr) (hceq ▸ hc)
        by_cases hassign : c ∈ updateAssignCols spec r
        · rw [applyUpdate_lookup_assign spec r now2 w hassign hcne]
          exact getProp_eq_of_mem hc
        · have hcex : c ∈ spec.exclude := by
            unfold updateAssignCols at hassign
            by_contra hcex
            exact hassign (List.mem_filter.mpr ⟨hc, by
              simp only [List.elem_eq_mem, Bool.not_eq_eq_eq_not, Bool.not_true,
                decide_eq_false_iff_not]
              exact hcex⟩)
          have hckey : c = spec.conflictKey := by
            rcases hexcl c hcex with h | h
            · exact h
            · exact absurd h hcne
          subst hckey
          rw [applyUpdate_lookup_other spec r now2 w hassign hcne]
          have hwkey : w.lookup spec.conflictKey = some v :=
            mem_filterKey_lookup (hw ▸ List.mem_singleton.mpr rfl)
          rw [hwkey, hv]
      · exact applyUpdate_lookup_updated_at spec r now2 w

/-- C3 witness: one Unit record upserted twice into an empty store leaves
exactly one row carrying the payload's values and the second run's
`updated_at`. -/
theorem upsertMany_twice_idempotent_witness :
    keyCount unitSpec (JSVal.num 1)
        (upsertMany unitSpec (fun _ => false) 200
          [[("unit_id", JSVal.num 1), ("rate_managed", JSVal.num 50)]]
          (upsertMany unitSpec (fun _ => false) 100
            [[("unit_id", JSVal.num 1), ("rate_managed", JSVal.num 50)]]
            []).store).store = 1 ∧
    ∃ row, findKey unitSpec (JSVal.num 1)
        (upsertMany unitSpec (fun _ => false) 200
          [[("unit_id", JSVal.num 1), ("rate_managed", JSVal.num 50)]]
          (upsertMany unitSpec (fun _ => false) 100
            [[("unit_id", JSVal.num 1), ("rate_managed", JSVal.num 50)]]
            []).store).store = some row ∧
      (∀ c ∈ rowKeys [("unit_id", JSVal.num 1), ("rate_managed", JSVal.num 50)],
        row.lookup c =
          List.lookup c [("unit_id", JSVal.num 1), ("rate_managed", JSVal.num 50)]) ∧
      row.lookup "updated_at" = some (JSVal.num 200) :=
  (upsertMany_twice_idempotent unitSpec 100 200
      [[("unit_id", JSVal.num 1), ("rate_managed", JSVal.num 50)]] []
      (by decide) (by decide) (by decide) (by decide) (by decide)
      (by intro r hr v hv; simp [keyCount, filterKey])).2.2.2
    [("unit_id", JSVal.num 1), ("rate_managed", JSVal.num 50)]
    (by decide) (JSVal.num 1) (by decide)

/-! ## Claim C4 -/

/-- C4 counterexample: a tenant row with `payment_status: 'current'`,
`auction_status: true`, `balance: 10` is stored by `syncTenantData`
(`BigQuerySync.js` line 762) with `is_good_standing = true`, though the
claimed derivation (the conjunction also checked by
`gmbAuth.determineGoodStanding`) is `false` on that row. -/
theorem syncTenant_goodstanding_counterexample :
    let row : Row := [("payment_status", JSVal.str "current"),
                      ("auction_status", JSVal.bool true),
                      ("balance", JSVal.num 10)]
    syncTenantGoodStanding row = true ∧
    determineGoodStanding row = false ∧
    specGoodStanding { payment_status := "current", auction_active := true,
                       balance := 10 } = false := by
  decide

/-- C4 (amended): the `gmbAuth.determineGoodStanding` path derives good
standing exactly as the spec states — payment status `'current'` AND auction
status not active AND balance ≤ 0 — while the `BigQuerySync.syncTenantData`
path stores `payment_status === 'current'` alone, ignoring auction status and
balance. -/
theorem goodStanding_derivations (t : TenantView) :
    determineGoodStanding t.toRow = specGoodStanding t ∧
    syncTenantGoodStanding t.toRow = (t.payment_status == "current") := by
  cases t with
  | mk p a b =>
    constructor
    · simp [determineGoodStanding, specGoodStanding, TenantView.toRow, getProp,
        lookup_cons_eq, jsStrictEqString, jsTruthy, jsLeZero, jsToNumber,
        List.lookup]
    · simp [syncTenantGoodStanding, TenantView.toRow, getProp, jsStrictEqString,
        List.lookup]

/-! ## Claim C5 -/

/-- C5: the retry executor attempts an operation at most 3 times; the delay
slept before retry number n is `min(1000 * 2 ^ (n-1), 10000)` milliseconds
(the i-th recorded sleep, 0-based, is `min(1000 * 2 ^ i, 10000)`); a
failure classified terminal (client error, authentication failure) on the
first attempt is raised immediately with no sleep and no retry; and when all
3 attempts fail retryably the last error is raised tagged with the operation
label and the attempt count. -/
theorem withRetry_policy {α : Type} (label : String)
    (op : Nat → Except FailKind α) :
    (withRetry defaultRetryConfig label op).attempts ≤ 3 ∧
    (∀ i d, (withRetry defaultRetryConfig label op).sleeps.get? i = some d →
      d = min (1000 * 2 ^ i) 10000) ∧
    (∀ e, op 1 = Except.error e → isTerminalFailure e = true →
      withRetry defaultRetryConfig label op =
        { result := Except.error (RetryError.terminal e), sleeps := [],
          attempts := 1 }) ∧
    (∀ e1 e2 e3, op 1 = Except.error e1 → isTerminalFailure e1 = false →
      op 2 = Except.error e2 → isTerminalFailure e2 = false →
      op 3 = Except.error e3 → isTerminalFailure e3 = false →
      withRetry defaultRetryConfig label op =
        { result := Except.error (RetryError.exhausted label 3 e3)
          sleeps := [1000, 2000], attempts := 3 }) := by
  refine ⟨?_, ?_, ?_, ?_⟩
  · exact withRetryAux_attempts_le defaultRetryConfig label op 2 1
  · intro i d h
    have hd := withRetryAux_sleeps defaultRetryConfig label op 2 1 i d h
    have h2 : 1 + i - 1 = i := by omega
    rw [hd]
    simp [retryDelay, defaultRetryConfig, h2]
  · intro e h1 ht
    unfold withRetry withRetryAux
    rw [h1]
    simp [ht]
  · intro e1 e2 e3 h1 ht1 h2 ht2 h3 ht3
    unfold withRetry
    show withRetryAux defaultRetryConfig label op 1 2 = _
    unfold withRetryAux
    rw [h1]
    simp only [ht1, Bool.false_eq_true, if_false]
    unfold withRetryAux
    rw [h2]
    simp only [ht2, Bool.false_eq_true, if_false]
    unfold withRetryAux
    rw [h3]
    simp only [ht3, Bool.false_eq_true, if_false]
    show ({ result := Except.error (RetryError.exhausted label 3 e3)
            sleeps := retryDelay defaultRetryConfig 1 ::
              retryDelay defaultRetryConfig 2 :: []
            attempts := 3 } : RetryOutcome α) = _
    congr 1

/-- C5 witness: an always-failing retryable operation exhausts 3 attempts,
sleeps 1000ms then 2000ms, and raises tagged with label and attempt count;
an authentication failure is raised immediately with no sleep. -/
theorem withRetry_policy_witness :
    (withRetry defaultRetryConfig "syncFacilities"
        (fun _ => (Except.error FailKind.serverError : Except FailKind Nat))).result =
      Except.error (RetryError.exhausted "syncFacilities" 3 FailKind.serverError) ∧
    (withRetry defaultRetryConfig "syncFacilities"
        (fun _ => (Except.error FailKind.serverError : Except FailKind Nat))).sleeps =
      [1000, 2000] ∧
    (withRetry defaultRetryConfig "getTenant"
        (fun _ => (Except.error FailKind.authFailure : Except FailKind Nat))).result =
      Except.error (RetryError.terminal FailKind.authFailure) ∧
    (withRetry defaultRetryConfig "getTenant"
        (fun _ => (Except.error FailKind.authFailure : Except FailKind Nat))).sleeps =
      [] := by
  have h1 := withRetry_policy "syncFacilities"
    (fun _ => (Except.error FailKind.serverError : Except FailKind Nat))
  have h2 := withRetry_policy "getTenant"
    (fun _ => (Except.error FailKind.authFailure : Except FailKind Nat))
  have e1 := h1.2.2.2 FailKind.serverError FailKind.serverError FailKind.serverError
    rfl rfl rfl rfl rfl rfl
  have e2 := h2.2.2.1 FailKind.authFailure rfl rfl
  rw [e1, e2]
  exact ⟨rfl, rfl, rfl, rfl⟩

/-! ## Claim C6 -/

/-- C6 counterexample: for `Payment.upsertMany` the conflict target is `id`
while the column excluded from the update clause is `payment_id` — they are
not the same column — and the generated clause therefore assigns the conflict
column itself (`id = EXCLUDED.id`) while a record's `payment_id` is the one
column never updated. -/
theorem payment_conflict_target_counterexample :
    paymentSpec.conflictKey = "id" ∧
    paymentSpec.exclude = ["payment_id"] ∧
    paymentSpec.conflictKey ∉ paymentSpec.exclude ∧
    updateClause paymentSpec
        [("id", JSVal.num 1), ("payment_id", JSVal.str "A"),
         ("payment_amount", JSVal.num 5)] =
      "id = EXCLUDED.id, payment_amount = EXCLUDED.payment_amount" := by
  decide

/-- C6 (amended): the generated conflict-update clause assigns every record
column except the entity's per-model exclusion list, and the statement always
refreshes `updated_at` to the current time; for Unit the conflict target and
the excluded column are the same natural key (`unit_id`), but for Payment the
conflict target `id` and the excluded column `payment_id` differ; the
creation timestamp is not in Unit's or Payment's exclusion list. -/
theorem updateClause_semantics (spec : UpsertSpec) (r row0 : Row) (now : ℚ) :
    (∀ k, k ∈ updateAssignCols unitSpec r ↔ (k ∈ rowKeys r ∧ k ≠ "unit_id")) ∧
    (∀ k, k ∈ updateAssignCols paymentSpec r ↔ (k ∈ rowKeys r ∧ k ≠ "payment_id")) ∧
    unitSpec.conflictKey = "unit_id" ∧
    unitSpec.exclude = [unitSpec.conflictKey] ∧
    paymentSpec.conflictKey = "id" ∧
    paymentSpec.exclude = ["payment_id"] ∧
    (applyUpdate spec r now row0).lookup "updated_at" = some (JSVal.num now) := by
  refine ⟨?_, ?_, rfl, rfl, rfl, rfl, applyUpdate_lookup_updated_at spec r now row0⟩
  · intro k
    simp [updateAssignCols, List.mem_filter, unitSpec]
  · intro k
    simp [updateAssignCols, List.mem_filter, paymentSpec]

/-! ## Claim C7 -/

/-- C7 counterexample: a sync category whose only recorded run is a failure
(at the current instant) reports `"healthy"`, because `trackFacilitySync` /
`trackTenantSync` set `lastSync` on every run, success or failure — the
verdict does not test the last successful run, contradicting the claimed
iff (here the category has no successful run at all). -/
theorem metrics_failure_healthy_counterexample :
    categoryStatus 0 (trackSync false 50 0 SyncCategory.init) = "healthy" ∧
    (trackSync false 50 0 SyncCategory.init).success = 0 ∧
    (trackSync false 50 0 SyncCategory.init).failure = 1 := by
  decide

/-- C7 (amended): `getHealthStatus` reports a tracked category healthy iff a
run has been recorded and the last recorded run — of either outcome, since
`lastSync` is set on success and on failure alike — lies strictly within the
previous 6 hours. -/
theorem categoryHealthy_lastRun (events : List (Bool × Nat × Int)) (now : Int) :
    categoryHealthy now (runHistory events) =
      (match events.getLast? with
       | none => false
       | some e => decide (now - sixHoursMs < e.2.2)) := by
  unfold categoryHealthy runHistory
  rw [lastSync_foldl]
  cases h : events.getLast? with
  | none => rfl
  | some e => rfl

/-! ## Claim C8 -/

/-- C8: field normalization is pure and case-wise as claimed: a date field
wrapped in a `{value: s}` carrier (with non-empty `s`) normalizes to the
plain string `s`; an already-plain date string passes through unchanged; a
numeric field holding a parseable non-empty numeric string becomes its
numeric value; and a `null` or `undefined` numeric field is returned as-is,
never coerced to 0. -/
theorem field_normalization_cases (row : Row) (field : String) (s : String)
    (q : ℚ) :
    (getProp row field = JSVal.obj [("value", JSPrim.str s)] → s ≠ "" →
      processDateField row field = JSVal.str s) ∧
    (getProp row field = JSVal.str s → processDateField row field = JSVal.str s) ∧
    (getProp row field = JSVal.str s → parseNumberLit s = some q → s ≠ "" →
      processNumericField row field = JSVal.num q) ∧
    (getProp row field = JSVal.null → processNumericField row field = JSVal.null) ∧
    (getProp row field = JSVal.undefined → processNumericField row field = JSVal.undefined) := by
  refine ⟨?_, ?_, ?_, ?_, ?_⟩
  · intro h hs
    unfold processDateField
    rw [h]
    simp [List.lookup, jsTruthyPrim, hs, JSPrim.toVal]
  · intro h
    unfold processDateField
    rw [h]
  · intro h hq hs
    unfold processNumericField
    rw [h]
    simp [jsTruthy, hs, jsParseFloat, hq]
  · intro h
    unfold processNumericField
    rw [h]
    rfl
  · intro h
    unfold processNumericField
    rw [h]
    rfl

/-- C8 witness: the spec's own test vectors — `{value: "2024-01-01"}`
normalizes to `"2024-01-01"`, the numeric string `"12.5"` to the rational
`12.5`, and `null` stays `null`. -/
theorem field_normalization_cases_witness :
    processDateField [("d", JSVal.obj [("value", JSPrim.str "2024-01-01")])] "d" =
      JSVal.str "2024-01-01" ∧
    processNumericField [("n", JSVal.str "12.5")] "n" =
      JSVal.num (((12 : ℕ) : ℚ) + ((5 : ℕ) : ℚ) / ((10 : ℚ) ^ (1 : ℕ))) ∧
    (((12 : ℕ) : ℚ) + ((5 : ℕ) : ℚ) / ((10 : ℚ) ^ (1 : ℕ))) = 25 / 2 ∧
    processNumericField [("z", JSVal.null)] "z" = JSVal.null :=
  ⟨(field_normalization_cases
      [("d", JSVal.obj [("value", JSPrim.str "2024-01-01")])] "d" "2024-01-01" 0).1
      rfl (by decide),
   (field_normalization_cases [("n", JSVal.str "12.5")] "n" "12.5" _).2.2.1
      rfl rfl (by decide),
   by norm_num,
   (field_normalization_cases [("z", JSVal.null)] "z" "" 0).2.2.2.1 rfl⟩

/-! ## Claim C9 -/

/-- C9 counterexample: `upsertMany` itself is not a no-op on the empty batch:
it still checks out a pooled connection and issues `BEGIN` and `COMMIT`
(the empty-list guard lives in `saveToDatabase`, not in `upsertMany`). -/
theorem upsertMany_empty_batch_counterexample :
    (upsertMany unitSpec (fun _ => false) 0 [] []).events =
      [DbEvent.connect, DbEvent.beginTxn, DbEvent.commitTxn, DbEvent.release] ∧
    DbEvent.beginTxn ∈ (upsertMany unitSpec (fun _ => false) 0 [] []).events ∧
    DbEvent.connect ∈ (upsertMany unitSpec (fun _ => false) 0 [] []).events := by
  decide

/-- C9 (amended): for the empty input list the store is left unchanged and no
error is raised; the no-op-without-a-transaction behavior belongs to
`saveToDatabase`, which returns before calling the model (no events at all),
whereas `upsertMany` on an empty batch still connects and issues an empty
`BEGIN`/`COMMIT` transaction. -/
theorem saveToDatabase_empty_noop (spec : UpsertSpec) (fails : Row → Bool)
    (now : ℚ) (store : List Row) :
    saveToDatabase spec fails now [] store =
      { store := store, events := [], released := true, errored := false } ∧
    (upsertMany spec fails now [] store).store = store ∧
    (upsertMany spec fails now [] store).errored = false ∧
    (upsertMany spec fails now [] store).events =
      [DbEvent.connect, DbEvent.beginTxn, DbEvent.commitTxn, DbEvent.release] :=
  ⟨rfl, rfl, rfl, rfl⟩

/-! ## Claim C10 -/

/-- C10 counterexample: a present-but-empty signature header has byte length
0 ≠ 64, yet the endpoint answers 401, not 500: the handler's
`if (!signature || ...)` treats the empty string as falsy before
`timingSafeEqual` can throw. -/
theorem webhook_empty_signature_counterexample :
    webhookHandler (String.mk (List.replicate 64 'a')) (some "") =
      WebhookResponse.unauthorized401 ∧
    ("" : String).utf8ByteSize ≠ 64 := by
  decide

/-- C10 (amended): with the 64-byte hex digest computed over the
re-serialized body, a missing or empty signature header yields 401; a
non-empty signature whose byte length differs from 64 makes
`crypto.timingSafeEqual` throw, so the endpoint answers 500; an equal-length
but wrong signature yields 401. -/
theorem webhook_signature_length_behavior (digest s : String)
    (hd : digest.utf8ByteSize = 64) :
    webhookHandler digest none = WebhookResponse.unauthorized401 ∧
    webhookHandler digest (some "") = WebhookResponse.unauthorized401 ∧
    (s ≠ "" → s.utf8ByteSize ≠ 64 →
      webhookHandler digest (some s) = WebhookResponse.serverError500) ∧
    (s ≠ "" → s.utf8ByteSize = 64 → s ≠ digest →
      webhookHandler digest (some s) = WebhookResponse.unauthorized401) := by
  refine ⟨rfl, rfl, ?_, ?_⟩
  · intro hne hlen
    simp only [webhookHandler, verifyWebhookSignature, timingSafeEqual, if_neg hne]
    rw [if_neg (fun hc => hlen (hd ▸ hc))]
  · intro hne hlen hsd
    simp only [webhookHandler, verifyWebhookSignature, timingSafeEqual, if_neg hne]
    rw [if_pos (by rw [hlen, hd]), beq_false_of_ne hsd]

/-- C10 witness: against a concrete 64-character digest, the two-byte
signature `"ab"` produces a 500 response. -/
theorem webhook_signature_length_behavior_witness :
    (String.mk (List.replicate 64 'a')).utf8ByteSize = 64 ∧
    webhookHandler (String.mk (List.replicate 64 'a')) (some "ab") =
      WebhookResponse.serverError500 :=
  ⟨by decide,
   (webhook_signature_length_behavior (String.mk (List.replicate 64 'a')) "ab"
      (by decide)).2.2.1 (by decide) (by decide)⟩

end BGolden
